import Mathlib

/-!
Verification of the nasa-api-proxy server (src/server.js and the EPIC-bearing
variant in src/unnamed/part_000) against its natural-language specification.

The embedding is shallow: network and filesystem effects are modelled by
explicit oracles, and each handler / helper is translated into a total Lean
function that additionally returns a trace of the observable effects
(HEAD preflights, GET attempts, backoff sleeps, completed stores, upstream
fetch calls, cache-candidate attempts).
-/

set_option maxRecDepth 4096

/-! ## Events and outcome types for the image-download path

`cacheImageIfNeeded` (src/server.js lines 133-200) performs, for a missing
file, up to 3 attempts.  Each attempt does a HEAD preflight (whose network
errors are swallowed) and then a streaming GET piped into a write stream at
the final path.  Outcomes are modelled per attempt:

* `HeadOutcome.status s` — the HEAD resolved with HTTP status `s`
  (`validateStatus: () => true`, so no status throws);
* `HeadOutcome.err` — URL parse failure, DNS failure or HEAD network error,
  all swallowed by the inner catch ("continue to GET").
* `GetOutcome.ok` — GET succeeded and the write stream finished.
* `GetOutcome.okWriteFail` — GET succeeded, `createWriteStream` created the
  file at the final path, but the write errored: a partial file remains and
  the attempt rejects with an error carrying no HTTP status (retryable).
* `GetOutcome.httpErr s` — GET rejected with HTTP status `s` (no file touched).
* `GetOutcome.netErr` — GET rejected with no HTTP status (no file touched).
-/

inductive HeadOutcome where
  | status (s : Nat)
  | err
deriving DecidableEq

inductive GetOutcome where
  | ok
  | okWriteFail
  | httpErr (s : Nat)
  | netErr
deriving DecidableEq

/-- The network behaviour seen by one `cacheImageIfNeeded` call: outcome of
the HEAD preflight and of the GET on each attempt index. -/
structure NetModel where
  head : Nat → HeadOutcome
  get : Nat → GetOutcome

inductive Ev where
  | headPre (i : Nat)
  | getAttempt (i : Nat)
  | backoff (ms : Nat)
  | stored (i : Nat)
deriving DecidableEq

/-- Result of the 3-attempt download loop: whether it set `success`, the
event trace, and the state of the file at the final local path afterwards
(`filePresent`: some file exists there, possibly truncated;
`fileComplete`: the file holds the complete downloaded content). -/
structure DownloadResult where
  success : Bool
  trace : List Ev
  filePresent : Bool
  fileComplete : Bool
deriving DecidableEq

/-- The retry loop of `cacheImageIfNeeded` (src/server.js lines 143-186),
run over a list of remaining attempt indices (the source uses `[1, 2, 3]`).
`fp`/`fc` carry the file state at the final local path into the loop.
Mirrors the source: a HEAD reporting 404 breaks with no GET; a GET rejecting
with status 404 breaks; any other failure sleeps `300 * 2^(i-1)` ms when
attempts remain (`i < 3` in the source, i.e. the remaining list is nonempty)
and retries. -/
def runAttempts (net : NetModel) : Bool → Bool → List Nat → DownloadResult
  | fp, fc, [] => ⟨false, [], fp, fc⟩
  | fp, fc, i :: rest =>
    let afterHead : Bool :=
      match net.head i with
      | .status s => s ≠ 404
      | .err => true
    if afterHead then
      match net.get i with
      | .ok => ⟨true, [.headPre i, .getAttempt i, .stored i], true, true⟩
      | .okWriteFail =>
        if rest.isEmpty then ⟨false, [.headPre i, .getAttempt i], true, false⟩
        else
          let r := runAttempts net true false rest
          ⟨r.success, .headPre i :: .getAttempt i :: .backoff (300 * 2 ^ (i - 1)) :: r.trace,
            r.filePresent, r.fileComplete⟩
      | .httpErr s =>
        if s = 404 then ⟨false, [.headPre i, .getAttempt i], fp, fc⟩
        else if rest.isEmpty then ⟨false, [.headPre i, .getAttempt i], fp, fc⟩
        else
          let r := runAttempts net fp fc rest
          ⟨r.success, .headPre i :: .getAttempt i :: .backoff (300 * 2 ^ (i - 1)) :: r.trace,
            r.filePresent, r.fileComplete⟩
      | .netErr =>
        if rest.isEmpty then ⟨false, [.headPre i, .getAttempt i], fp, fc⟩
        else
          let r := runAttempts net fp fc rest
          ⟨r.success, .headPre i :: .getAttempt i :: .backoff (300 * 2 ^ (i - 1)) :: r.trace,
            r.filePresent, r.fileComplete⟩
    else ⟨false, [.headPre i], fp, fc⟩

/-- The public URL returned for a cached key:
`${getPublicBase(req) || ''}/cdn/${subpath}` (src/server.js lines 194-195). -/
def cdnUrl (base subpath : String) : String := base ++ "/cdn/" ++ subpath

/-- Result of one `cacheImageIfNeeded` call. -/
structure CacheCallResult where
  result : Option String
  trace : List Ev
  filePresent : Bool
  fileComplete : Bool
deriving DecidableEq

/-- `cacheImageIfNeeded` (src/server.js lines 133-200).  `fileExists` /
`fileWasComplete` describe the file at `path.join(PUBLIC_DIR, subpath)`
before the call (`fs.existsSync`).  If the file exists the network is
skipped entirely; otherwise the 3-attempt loop runs, and on loop failure
the thrown `lastErr` is caught and mapped to `null` (here `none`). -/
def cacheImageIfNeeded (net : NetModel) (fileExists fileWasComplete : Bool)
    (base subpath : String) : CacheCallResult :=
  if fileExists then
    ⟨some (cdnUrl base subpath), [], fileExists, fileWasComplete⟩
  else
    let r := runAttempts net false false [1, 2, 3]
    if r.success then ⟨some (cdnUrl base subpath), r.trace, r.filePresent, r.fileComplete⟩
    else ⟨none, r.trace, r.filePresent, r.fileComplete⟩

/-- Number of completed downloads (stores into the content store) in a trace. -/
def downloads : List Ev → Nat
  | [] => 0
  | .stored _ :: t => downloads t + 1
  | _ :: t => downloads t

/-! ## The JSON-metadata retry path

`fetchJsonWithRetry` (src/server.js lines 98-118): up to `attempts` GET
attempts (default 2, base delay 250 ms); an error with an HTTP status in
[400, 500) other than 429 breaks immediately; otherwise it sleeps
`initialDelayMs * 2^(i-1)` when attempts remain and retries; on exhaustion
the last error is thrown (modelled as `false`). -/

inductive JsonOutcome where
  | ok
  | httpErr (s : Nat)
  | netErr
deriving DecidableEq

def fetchJsonRun (net : Nat → JsonOutcome) (d : Nat) : List Nat → Bool × List Ev
  | [] => (false, [])
  | i :: rest =>
    match net i with
    | .ok => (true, [.getAttempt i])
    | .httpErr s =>
      if 400 ≤ s ∧ s < 500 ∧ s ≠ 429 then (false, [.getAttempt i])
      else if rest.isEmpty then (false, [.getAttempt i])
      else
        let r := fetchJsonRun net d rest
        (r.1, .getAttempt i :: .backoff (d * 2 ^ (i - 1)) :: r.2)
    | .netErr =>
      if rest.isEmpty then (false, [.getAttempt i])
      else
        let r := fetchJsonRun net d rest
        (r.1, .getAttempt i :: .backoff (d * 2 ^ (i - 1)) :: r.2)

/-! ## String helpers mirroring the JavaScript operations used -/

/-- Does `text` begin with `pat`? -/
def beginsWith : List Char → List Char → Bool
  | [], _ => true
  | _ :: _, [] => false
  | p :: ps, c :: cs => p == c && beginsWith ps cs

/-- Does `text` contain `pat` as a contiguous run? -/
def hasRun (pat : List Char) : List Char → Bool
  | [] => beginsWith pat []
  | c :: cs => beginsWith pat (c :: cs) || hasRun pat cs

/-- JS `String.prototype.includes` (substring containment). -/
def jsIncludes (s sub : String) : Bool := hasRun sub.data s.data

/-- JS string truthiness for an optional field: absent and `""` are falsy. -/
def truthyStr : Option String → Bool
  | none => false
  | some s => s != ""

/-- JS `toLowerCase` for the ASCII text the handler inspects. -/
def jsToLower (s : String) : String := String.mk (s.data.map Char.toLower)

/-! ## The YouTube id extraction regex

`extractYouTubeId` (src/server.js lines 211-215) applies the regex

`(?:youtube\.com\/(?:[^\/]+\/.+\/|(?:v|e(?:mbed)?)\/|.*[?&]v=)|youtu\.be\/)([^"&?\/\s]{11})`

and returns the first capture group or null.  The matcher below implements
exactly this pattern with JS backtracking order: leftmost match position,
alternatives in written order, greedy quantifiers (longest consumption
tried first). -/

/-- JS regex `\s` on the characters that can occur here. -/
def jsWhitespace (c : Char) : Bool :=
  c == ' ' || c == '\t' || c == '\n' || c == '\r' || c == '\x0b' || c == '\x0c' ||
  c == ' ' || c == ' ' || (0x2000 ≤ c.toNat && c.toNat ≤ 0x200a) ||
  c == ' ' || c == ' ' || c == ' ' || c == ' ' ||
  c == '　' || c == '﻿'

/-- A character admitted by the capture class `[^"&?\/\s]`. -/
def idChar (c : Char) : Bool :=
  !(c == '"' || c == '&' || c == '?' || c == '/' || jsWhitespace c)

/-- The capture `([^"&?\/\s]{11})`: exactly 11 admitted characters. -/
def captureId (cs : List Char) : Option (List Char) :=
  let pre := cs.take 11
  if pre.length = 11 && pre.all idChar then some pre else none

/-- Consume a literal, returning the remainder. -/
def dropLit : List Char → List Char → Option (List Char)
  | [], cs => some cs
  | _ :: _, [] => none
  | l :: ls, c :: cs => if c == l then dropLit ls cs else none

/-- JS regex `.` (no s-flag): any character except a line terminator. -/
def notLineTerm (c : Char) : Bool :=
  !(c == '\n' || c == '\r' || c == ' ' || c == ' ')

/-- Remainders after a greedy `p*`, longest consumption first. -/
def starRems (p : Char → Bool) : List Char → List (List Char)
  | [] => [[]]
  | c :: cs => if p c then starRems p cs ++ [c :: cs] else [c :: cs]

/-- Remainders after a greedy `p+`, longest consumption first. -/
def plusRems (p : Char → Bool) : List Char → List (List Char)
  | [] => []
  | c :: cs => if p c then starRems p cs else []

/-- Remainders after `[^\/]+\/.+\/`, in backtracking order. -/
def a1Rems (cs : List Char) : List (List Char) :=
  (plusRems (fun c => !(c == '/')) cs).flatMap fun r =>
    match r with
    | '/' :: r2 =>
      (plusRems notLineTerm r2).flatMap fun r3 =>
        match r3 with
        | '/' :: r4 => [r4]
        | _ => []
    | _ => []

/-- Remainders after `(?:v|e(?:mbed)?)\/`: `v/` first, then the greedy
optional `mbed` (so `embed/` before `e/`). -/
def a2Rems (cs : List Char) : List (List Char) :=
  (match dropLit ['v', '/'] cs with | some r => [r] | none => []) ++
  (match dropLit ['e', 'm', 'b', 'e', 'd', '/'] cs with | some r => [r] | none => []) ++
  (match dropLit ['e', '/'] cs with | some r => [r] | none => [])

/-- Remainders after `.*[?&]v=`, greedy order. -/
def a3Rems (cs : List Char) : List (List Char) :=
  (starRems notLineTerm cs).flatMap fun r =>
    match r with
    | c :: 'v' :: '=' :: r2 => if c == '?' || c == '&' then [r2] else []
    | _ => []

/-- All capture start positions reachable from this match position, in
backtracking order: the `youtube.com/` branch with its three alternatives,
then the `youtu.be/` branch. -/
def ytRemsAt (cs : List Char) : List (List Char) :=
  (match dropLit "youtube.com/".data cs with
   | some r => a1Rems r ++ a2Rems r ++ a3Rems r
   | none => []) ++
  (match dropLit "youtu.be/".data cs with
   | some r => [r]
   | none => [])

def firstCapture : List (List Char) → Option (List Char)
  | [] => none
  | r :: rs =>
    match captureId r with
    | some v => some v
    | none => firstCapture rs

/-- Search left to right for the first position where the whole pattern
matches; return the capture there. -/
def ytSearch : List Char → Option (List Char)
  | [] => none
  | c :: cs =>
    match firstCapture (ytRemsAt (c :: cs)) with
    | some v => some v
    | none => ytSearch cs

/-- `extractYouTubeId` (src/server.js lines 211-215): the regex capture, or
null when the pattern does not match. -/
def extractYouTubeId (url : String) : Option String :=
  (ytSearch url.data).map fun l => String.mk l

/-! ## The APOD (day-picture) handler

`app.get('/api/nasa/apod')` (src/server.js lines 218-325).  The upstream
record is modelled with the fields the handler reads or writes; optional
fields use `Option String` with JS truthiness (`truthyStr`).  The
`display_url` caching step abstracts `cacheImageIfNeeded` (and the
extension/subpath derivation feeding it) into an oracle
`cache : String → Option String` from source URL to result, justified by
the totality of `cacheImageIfNeeded` (it returns a URL or null, never
throws). -/

structure ApodData where
  title : String
  media_type : String
  url : Option String
  hdurl : Option String
  explanation : Option String
  date : String
  thumbnail_url : Option String := none
  video_url : Option String := none
  isNasaHosted : Bool := false
  display_url : Option String := none
  original_url : Option String := none
deriving DecidableEq

/-- The fixed space-themed placeholder thumbnail used for Vimeo and
NASA-hosted video content. -/
def placeholderThumb : String :=
  "https://images.unsplash.com/photo-1446776877081-d282a0f896e2?w=800&h=600&fit=crop"

/-- The synthetic per-day APOD archive page URL (src/server.js lines
270-276): strip dashes from the date, then take `substring(2,4)`,
`substring(4,6)`, `substring(6,8)`. -/
def apodPageUrl (date : String) : String :=
  let ds := date.data.filter fun c => c != '-'
  let yy := String.mk ((ds.drop 2).take 2)
  let mm := String.mk ((ds.drop 4).take 2)
  let dd := String.mk ((ds.drop 6).take 2)
  "https://apod.nasa.gov/apod/ap" ++ yy ++ mm ++ dd ++ ".html"

/-- Does the explanation mention video / animation / time-lapse content
(lower-cased substring checks, src/server.js lines 257-260)? -/
def hasVideoTerms (expl : String) : Bool :=
  let low := jsToLower expl
  jsIncludes low "video" || jsIncludes low "animation" || jsIncludes low "time-lapse"

/-- The media-kind handling block (src/server.js lines 239-278): the
video-with-URL branch (YouTube / Vimeo thumbnail), else the
reclassification branch for `other`-tagged records or records whose
explanation mentions video terms. -/
def apodTransform (d0 : ApodData) : ApodData :=
  if d0.media_type == "video" && truthyStr d0.url then
    let u := d0.url.getD ""
    let d1 :=
      if jsIncludes u "youtube.com" || jsIncludes u "youtu.be" then
        match extractYouTubeId u with
        | some vid =>
          let tn := "https://img.youtube.com/vi/" ++ vid ++ "/hqdefault.jpg"
          { d0 with thumbnail_url := some tn }
        | none => d0
      else if jsIncludes u "vimeo.com" then
        { d0 with thumbnail_url := some placeholderThumb }
      else d0
    { d1 with video_url := d1.url }
  else if d0.media_type == "other" ||
      (truthyStr d0.explanation && hasVideoTerms (d0.explanation.getD "")) then
    let d1 := { d0 with
      media_type := "video"
      isNasaHosted := true
      thumbnail_url := some placeholderThumb }
    if truthyStr d1.url then d1
    else
      let vu := apodPageUrl d1.date
      { d1 with video_url := some vu, url := some vu }
  else d0

/-- The display-URL selection and caching step (src/server.js lines
280-303): pick `hdurl || url` for images, `thumbnail_url` for videos; on a
successful cache, set `display_url` and `original_url`. -/
def apodDisplay (cache : String → Option String) (d : ApodData) : ApodData :=
  let orig : Option String :=
    if d.media_type == "image" then
      if truthyStr d.hdurl then d.hdurl else d.url
    else if d.media_type == "video" then d.thumbnail_url
    else none
  if truthyStr orig then
    match cache (orig.getD "") with
    | some cdn => { d with display_url := some cdn, original_url := orig }
    | none => d
  else d

def earthriseUrl : String :=
  "https://apod.nasa.gov/apod/image/1812/earthrise_apollo8_4133.jpg"

/-- The built-in Earthrise fallback (src/server.js lines 311-321), with
`date` set to today and `display_url` set to `hdurl || url`. -/
def apodFallback (today : String) : ApodData :=
  { title := "Earthrise",
    media_type := "image",
    url := some earthriseUrl,
    hdurl := some earthriseUrl,
    explanation := some ("This iconic image shows Earth rising over the lunar horizon, captured during the Apollo 8 mission. When API services are temporarily unavailable, we show this timeless view of our home planet."),
    date := today,
    display_url := some earthriseUrl }

/-- The whole APOD route handler as (status, body).  `upstream = none`
models an unrecoverable failure of the try block before the transform
(missing NASA_API_KEY, or the upstream GET throwing after retries); both
land in the catch, which serves the fallback.  All responses are sent with
`respondJson`/`res.json` at the default status 200. -/
def apodHandler (cache : String → Option String) (today : String)
    (upstream : Option ApodData) : Nat × ApodData :=
  match upstream with
  | none => (200, apodFallback today)
  | some nasa => (200, apodDisplay cache (apodTransform nasa))

/-! ## The EPIC (earth-image) handler

`app.get('/api/nasa/epic')` in the EPIC-bearing variant
(src/unnamed/part_000 lines 751-1004).  Upstream metadata fetches and
image-cache calls are oracles; each cache call is
`cache url subpath = Option cdnUrl` (again justified by the totality of
`cacheImageIfNeeded`). -/

structure EpicCoordSet where
  centroidLat : Rat
  centroidLon : Rat
  dscovrX : Rat
  dscovrY : Rat
  dscovrZ : Rat
  lunarX : Rat
  lunarY : Rat
  lunarZ : Rat
  sunX : Rat
  sunY : Rat
  sunZ : Rat
  q0 : Rat
  q1 : Rat
  q2 : Rat
  q3 : Rat
deriving DecidableEq

/-- An EPIC record as the handler reads it (the grouped coordinate objects
of the JSON are flattened into `EpicCoordSet`; `coordsTop` holds the
top-level group and `coords` the nested duplicate). -/
structure EpicItem where
  identifier : String
  caption : String
  image : String
  version : String
  date : String
  coordsTop : EpicCoordSet
  coords : EpicCoordSet
deriving DecidableEq

/-- UTC decomposition of a well-formed EPIC timestamp
`"YYYY-MM-DD HH:mm:ss"` into (yyyy, mm, dd), as computed by
`new Date(date.replace(' ', 'T') + 'Z')` and the `getUTC*` accessors. -/
def epicDateParts (s : String) : String × String × String :=
  (String.mk (s.data.take 4),
   String.mk ((s.data.drop 5).take 2),
   String.mk ((s.data.drop 8).take 2))

/-- One file-location candidate: the remote URL tried, the cache subpath,
and the `original` URL recorded on success (for the key-authenticated
mirror the recorded original is the un-keyed primary-mirror URL). -/
structure Cand where
  url : String
  sub : String
  orig : String
deriving DecidableEq

structure Chosen where
  cdn : String
  original : String
deriving DecidableEq

def gsfcFull (coll y m d img ext : String) : Cand :=
  let fn := img ++ "." ++ ext
  let dp := y ++ "/" ++ m ++ "/" ++ d
  let u := "https://epic.gsfc.nasa.gov/archive/" ++ coll ++ "/" ++ dp ++ "/" ++ ext ++ "/" ++ fn
  { url := u, sub := "nasa/epic/" ++ y ++ "/" ++ m ++ "/" ++ d ++ "/" ++ fn, orig := u }

def apiFull (key coll y m d img ext : String) : Cand :=
  let fn := img ++ "." ++ ext
  let dp := y ++ "/" ++ m ++ "/" ++ d
  let u := "https://api.nasa.gov/EPIC/archive/" ++ coll ++ "/" ++ dp ++ "/" ++ ext ++ "/" ++ fn ++ "?api_key=" ++ key
  let g := "https://epic.gsfc.nasa.gov/archive/" ++ coll ++ "/" ++ dp ++ "/" ++ ext ++ "/" ++ fn
  { url := u, sub := "nasa/epic/" ++ y ++ "/" ++ m ++ "/" ++ d ++ "/" ++ fn, orig := g }

def gsfcThumb (coll y m d img : String) : Cand :=
  let fn := img ++ ".jpg"
  let dp := y ++ "/" ++ m ++ "/" ++ d
  let u := "https://epic.gsfc.nasa.gov/archive/" ++ coll ++ "/" ++ dp ++ "/thumbs/" ++ fn
  { url := u, sub := "nasa/epic/" ++ y ++ "/" ++ m ++ "/" ++ d ++ "/thumbs/" ++ fn, orig := u }

def apiThumb (key coll y m d img : String) : Cand :=
  let fn := img ++ ".jpg"
  let dp := y ++ "/" ++ m ++ "/" ++ d
  let u := "https://api.nasa.gov/EPIC/archive/" ++ coll ++ "/" ++ dp ++ "/thumbs/" ++ fn ++ "?api_key=" ++ key
  let g := "https://epic.gsfc.nasa.gov/archive/" ++ coll ++ "/" ++ dp ++ "/thumbs/" ++ fn
  { url := u, sub := "nasa/epic/" ++ y ++ "/" ++ m ++ "/" ++ d ++ "/thumbs/" ++ fn, orig := g }

/-- Generic "try candidates in order, stop at the first successful cache"
combinator; returns the winner (if any) and the list of candidates
actually attempted, in order. -/
def tryCands (cache : String → String → Option String) : List Cand → Option Chosen × List Cand
  | [] => (none, [])
  | c :: cs =>
    match cache c.url c.sub with
    | some u => (some ⟨u, c.orig⟩, [c])
    | none =>
      let r := tryCands cache cs
      (r.1, c :: r.2)

/-- The `for (const ext of extCandidates)` loops of the source, over a
candidate constructor parameterised by extension. -/
def tryExtLoop (cache : String → String → Option String) (mk : String → Cand) :
    List String → Option Chosen × List Cand
  | [] => (none, [])
  | e :: es =>
    let c := mk e
    match cache c.url c.sub with
    | some u => (some ⟨u, c.orig⟩, [c])
    | none =>
      let r := tryExtLoop cache mk es
      (r.1, c :: r.2)

/-- The per-record candidate order of the main EPIC loop
(src/unnamed/part_000 lines 834-873), spelled out. -/
def epicCandList (key coll y m d img : String) : List Cand :=
  [gsfcFull coll y m d img "png", gsfcFull coll y m d img "jpg",
   apiFull key coll y m d img "png", apiFull key coll y m d img "jpg",
   gsfcThumb coll y m d img, apiThumb key coll y m d img]

/-- The per-record resolution of the main EPIC loop, translated from the
source structure: primary mirror full-res png/jpg; if no winner and the
API key is set, secondary mirror full-res png/jpg; then primary thumbnail;
then (key permitting) secondary thumbnail.  Returns the winner and the
attempted candidates in order. -/
def resolveRecord (cache : String → String → Option String) (kp : Bool)
    (key coll : String) (item : EpicItem) : Option Chosen × List Cand :=
  let p := epicDateParts item.date
  let y := p.1
  let m := p.2.1
  let d := p.2.2
  let r1 := tryExtLoop cache (gsfcFull coll y m d item.image) ["png", "jpg"]
  match r1.1 with
  | some ch => (some ch, r1.2)
  | none =>
    let r2 := if kp then tryExtLoop cache (apiFull key coll y m d item.image) ["png", "jpg"]
              else (none, [])
    match r2.1 with
    | some ch => (some ch, r1.2 ++ r2.2)
    | none =>
      let c3 := gsfcThumb coll y m d item.image
      match cache c3.url c3.sub with
      | some u => (some ⟨u, c3.orig⟩, r1.2 ++ r2.2 ++ [c3])
      | none =>
        if kp then
          let c4 := apiThumb key coll y m d item.image
          match cache c4.url c4.sub with
          | some u => (some ⟨u, c4.orig⟩, r1.2 ++ r2.2 ++ [c3, c4])
          | none => (none, r1.2 ++ r2.2 ++ [c3, c4])
        else (none, r1.2 ++ r2.2 ++ [c3])

/-- An element of the response array: the record plus the fields the loop
adds (`image_url`, `original_url`, `collection`); all absent when the
record could not be cached (the source then sets `original_url` to
`undefined`, which JSON serialisation drops). -/
structure EpicOut where
  item : EpicItem
  image_url : Option String := none
  original_url : Option String := none
  collection : Option String := none
deriving DecidableEq

/-- The batch loop over `items.slice(0, 2)` (src/unnamed/part_000 lines
822-889): each record is resolved in turn; the first record that resolves
is enriched and the loop breaks (remaining records untouched); a record
that does not resolve is passed through bare.  Returns the response list
and the records actually processed.  The per-record try/catch of the
source is unreachable here because resolution is total. -/
def processRecords (cache : String → String → Option String) (kp : Bool) (key coll : String) :
    List EpicItem → List EpicOut × List EpicItem
  | [] => ([], [])
  | it :: rest =>
    match (resolveRecord cache kp key coll it).1 with
    | some ch =>
      ([{ item := it, image_url := some ch.cdn, original_url := some ch.original,
          collection := some coll }], [it])
    | none =>
      let r := processRecords cache kp key coll rest
      ({ item := it } :: r.1, it :: r.2)

/-! ## The EPIC collection / date strategy (src/unnamed/part_000 lines 759-817) -/

/-- `collectionsToTry`: enhanced-first exactly when the caller requested
`enhanced` (after trim / lower-case normalisation, which the model assumes
already applied to `requested`; absent defaults to `natural`). -/
def collectionsToTry (requested : String) : List String :=
  if requested == "enhanced" then ["enhanced", "natural"] else ["natural", "enhanced"]

/-- Descending insertion used to model `data.sort().reverse()` on ISO date
strings (JS default sort is lexicographic, which on these strings is
chronological). -/
def insertDesc (d : String) : List String → List String
  | [] => [d]
  | x :: xs => if decide (d ≥ x) then d :: x :: xs else x :: insertDesc d xs

def sortDesc (l : List String) : List String := l.foldr insertDesc []

/-- `fetchAvailableDates` (lines 777-785): most recent first, `[]` on error
or a non-array response. -/
def availDates (raw : Option (List String)) : List String :=
  match raw with
  | some l => sortDesc l
  | none => []

/-- The candidate dates built before the yesterday fallback is considered
(lines 791-796): the explicit date parameter if present, then each of the
3 most recent available dates not already in the list. -/
def baseCandidates (dp : Option String) (avail : List String) : List String :=
  let init : List String := match dp with | some d => [d] | none => []
  ((sortDesc avail).take 3).foldl (fun acc d => if acc.contains d then acc else acc ++ [d]) init

/-- The full candidate-date list (lines 791-805): when nothing else was
collected, a single hard-coded "yesterday" (UTC). -/
def candidateDates (dp : Option String) (avail : List String) (yesterday : String) : List String :=
  let l := baseCandidates dp avail
  if l.isEmpty then [yesterday] else l

/-- Keep only a present, non-empty array
(`alt && Array.isArray(alt) && alt.length > 0`). -/
def nonEmptyItems : Option (List EpicItem) → Option (List EpicItem)
  | some l => if l.isEmpty then none else some l
  | none => none

/-- The date loop inside one collection (lines 807-810): try each candidate
date in order, stop at the first fetch returning a non-empty array.
Returns the result and the (collection, date) fetch calls made. -/
def tryDates (fetch : String → Option String → Option (List EpicItem)) (c : String) :
    List String → Option (List EpicItem) × List (String × Option String)
  | [] => (none, [])
  | d :: ds =>
    match nonEmptyItems (fetch c (some d)) with
    | some its => (some its, [(c, some d)])
    | none =>
      let r := tryDates fetch c ds
      (r.1, (c, some d) :: r.2)

/-- One iteration of the collection loop (lines 788-815): the date loop,
then — when `items` is still null or an empty array — a final call without
a date (the "today" endpoint).  `items0` is the value of `items` carried in
from earlier iterations. -/
def runOneCollection (fetch : String → Option String → Option (List EpicItem)) (c : String)
    (cands : List String) (items0 : Option (List EpicItem)) :
    Option (List EpicItem) × List (String × Option String) :=
  let r := tryDates fetch c cands
  let items1 := match r.1 with | some its => some its | none => items0
  match items1 with
  | none => (fetch c none, r.2 ++ [(c, none)])
  | some l => if l.isEmpty then (fetch c none, r.2 ++ [(c, none)]) else (items1, r.2)

/-- The collection loop (lines 788-817): run each collection in order,
breaking as soon as `items` is a non-empty array; `used` tracks
`usedCollection` (set at the top of each iteration). -/
def runStrategy (fetch : String → Option String → Option (List EpicItem))
    (avail : String → List String) (dp : Option String) (yesterday : String) :
    List String → Option (List EpicItem) → String →
    String × Option (List EpicItem) × List (String × Option String)
  | [], items, used => (used, items, [])
  | c :: cs, items0, _ =>
    let cands := candidateDates dp (avail c) yesterday
    let r := runOneCollection fetch c cands items0
    match nonEmptyItems r.1 with
    | some its => (c, some its, r.2)
    | none =>
      let rec2 := runStrategy fetch avail dp yesterday cs r.1 c
      (rec2.1, rec2.2.1, r.2 ++ rec2.2.2)

/-- The built-in EPIC fallback record (src/unnamed/part_000 lines 897-955). -/
def epicFallbackCoords : EpicCoordSet :=
  { centroidLat := 0, centroidLon := 0,
    dscovrX := -1394708.63, dscovrY := 576971.88, dscovrZ := 246324.69,
    lunarX := 25949.44, lunarY := -351738.88, lunarZ := -152481.00,
    sunX := -37296566.44, sunY := -139990462.88, sunZ := -60673090.00,
    q0 := -0.374760, q1 := 0.024730, q2 := 0.015829, q3 := 0.926654 }

def epicFallbackItem : EpicItem :=
  { identifier := "20240810_000000",
    caption := "This image was taken by the EPIC camera aboard the NOAA DSCOVR satellite",
    image := "epic_1b_20240810000000",
    version := "03",
    date := "2024-08-10 00:00:00",
    coordsTop := epicFallbackCoords,
    coords := epicFallbackCoords }

/-- The fallback branch's own one-shot cache attempt (src/unnamed/part_000
lines 957-1000), collection `natural`: primary mirror png/jpg, then primary
thumbnail, then (key permitting) secondary mirror png/jpg, then secondary
thumbnail. -/
def fallbackResolve (cache : String → String → Option String) (kp : Bool) (key : String) :
    Option Chosen :=
  let p := epicDateParts epicFallbackItem.date
  let y := p.1
  let m := p.2.1
  let d := p.2.2
  let img := epicFallbackItem.image
  match (tryExtLoop cache (gsfcFull "natural" y m d img) ["png", "jpg"]).1 with
  | some ch => some ch
  | none =>
    let c3 := gsfcThumb "natural" y m d img
    match cache c3.url c3.sub with
    | some u => some ⟨u, c3.orig⟩
    | none =>
      if kp then
        match (tryExtLoop cache (apiFull key "natural" y m d img) ["png", "jpg"]).1 with
        | some ch => some ch
        | none =>
          let c4 := apiThumb key "natural" y m d img
          match cache c4.url c4.sub with
          | some u => some ⟨u, c4.orig⟩
          | none => none
      else none

/-- The EPIC fallback response body (lines 893-1003): the single built-in
record, enriched with `image_url`/`original_url` when the one-shot cache
attempt succeeded (the fallback does not set `collection`). -/
def epicFallbackBody (cache : String → String → Option String) (kp : Bool) (key : String) :
    List EpicOut :=
  match fallbackResolve cache kp key with
  | some ch => [{ item := epicFallbackItem, image_url := some ch.cdn,
                  original_url := some ch.original }]
  | none => [{ item := epicFallbackItem }]

/-- The whole EPIC route handler as (status, body).  `kp` is whether
NASA_API_KEY is configured; a missing key throws before the strategy and
lands in the catch, as does a strategy that ends with `items` null.
All responses go out via `res.json` at the default status 200. -/
def epicHandler (cache : String → String → Option String)
    (fetch : String → Option String → Option (List EpicItem))
    (avail : String → List String) (kp : Bool) (key : String)
    (dp : Option String) (reqColl : String) (yesterday : String) : Nat × List EpicOut :=
  if kp then
    let cols := collectionsToTry reqColl
    let r := runStrategy fetch avail dp yesterday cols none (cols.headD "natural")
    match r.2.1 with
    | none => (200, epicFallbackBody cache kp key)
    | some items => (200, (processRecords cache kp key r.1 (items.take 2)).1)
  else (200, epicFallbackBody cache false key)

/-! ## The route-timeout middleware of the EPIC-bearing variant

The EPIC-bearing variant (src/unnamed/part_000 lines 503-515) arms a
per-request timer of ROUTE_TIMEOUT_MS (default 20000 ms); if it fires
before the handler has sent headers, it responds
`res.status(504).json({ error: 'Gateway Timeout', route })`.  (The current
src/server.js middleware, lines 31-39, only sets a flag and deliberately
never sends a response, so its routes cannot 504.)  Real time is modelled
by the handler body's total duration in milliseconds: the deadline fires
first exactly when that duration exceeds the timeout. -/

inductive EpicRouteBody where
  | items (l : List EpicOut)
  | timeoutError (route : String)
deriving DecidableEq

/-- `parseInt(process.env.ROUTE_TIMEOUT_MS || '20000', 10)` at its
default. -/
def ROUTE_TIMEOUT_MS : Nat := 20000

/-- The EPIC route as seen by the client: the timeout middleware composed
with the handler response.  When the deadline elapses before the handler
responds, the middleware wins with 504 Gateway Timeout and the error
body naming the route; otherwise the handler response goes out
unchanged. -/
def epicRoute (timeoutMs handlerMs : Nat) (route : String)
    (resp : Nat × List EpicOut) : Nat × EpicRouteBody :=
  if timeoutMs < handlerMs then (504, .timeoutError route)
  else (resp.1, .items resp.2)

/-- Worst-case wall-clock cost of one trace event: a GET attempt that
runs to its per-attempt timeout `attemptMs`, a backoff that sleeps its
full delay. -/
def evDuration (attemptMs : Nat) : Ev → Nat
  | .getAttempt _ => attemptMs
  | .backoff ms => ms
  | _ => 0

/-- Worst-case wall-clock duration of a fetch trace. -/
def traceDuration (attemptMs : Nat) (t : List Ev) : Nat :=
  (t.map (evDuration attemptMs)).sum

/-! ## Helper lemmas about the download loop -/

theorem downloads_nil : downloads [] = 0 := rfl

theorem downloads_cons_headPre (i : Nat) (t : List Ev) :
    downloads (.headPre i :: t) = downloads t := rfl

theorem downloads_cons_getAttempt (i : Nat) (t : List Ev) :
    downloads (.getAttempt i :: t) = downloads t := rfl

theorem downloads_cons_backoff (ms : Nat) (t : List Ev) :
    downloads (.backoff ms :: t) = downloads t := rfl

theorem downloads_cons_stored (i : Nat) (t : List Ev) :
    downloads (.stored i :: t) = downloads t + 1 := rfl

/-- The loop stores at most one file, and exactly one iff it succeeds. -/
theorem downloads_runAttempts (net : NetModel) :
    ∀ (l : List Nat) (fp fc : Bool),
      downloads (runAttempts net fp fc l).trace =
        if (runAttempts net fp fc l).success then 1 else 0 := by
  intro l
  induction l with
  | nil => intro fp fc; simp [runAttempts, downloads]
  | cons i rest ih =>
    intro fp fc
    simp only [runAttempts]
    cases hh : net.head i with
    | status s =>
      by_cases h4 : s = 404
      · simp [h4, downloads]
      · rw [if_pos (by simp [h4])]
        cases hg : net.get i with
        | ok => simp [downloads]
        | okWriteFail =>
          by_cases hre : rest.isEmpty
          · simp [hre, downloads]
          · simp [hre, downloads_cons_headPre, downloads_cons_getAttempt,
              downloads_cons_backoff, ih]
        | httpErr s2 =>
          by_cases h42 : s2 = 404
          · simp [h42, downloads]
          · by_cases hre : rest.isEmpty
            · simp [h42, hre, downloads]
            · simp [h42, hre, downloads_cons_headPre, downloads_cons_getAttempt,
                downloads_cons_backoff, ih]
        | netErr =>
          by_cases hre : rest.isEmpty
          · simp [hre, downloads]
          · simp [hre, downloads_cons_headPre, downloads_cons_getAttempt,
              downloads_cons_backoff, ih]
    | err =>
      simp only []
      cases hg : net.get i with
      | ok => simp [downloads]
      | okWriteFail =>
        by_cases hre : rest.isEmpty
        · simp [hre, downloads]
        · simp [hre, downloads_cons_headPre, downloads_cons_getAttempt,
            downloads_cons_backoff, ih]
      | httpErr s2 =>
        by_cases h42 : s2 = 404
        · simp [h42, downloads]
        · by_cases hre : rest.isEmpty
          · simp [h42, hre, downloads]
          · simp [h42, hre, downloads_cons_headPre, downloads_cons_getAttempt,
              downloads_cons_backoff, ih]
      | netErr =>
        by_cases hre : rest.isEmpty
        · simp [hre, downloads]
        · simp [hre, downloads_cons_headPre, downloads_cons_getAttempt,
            downloads_cons_backoff, ih]

/-- Once some file is present at the final path, the loop never removes it. -/
theorem filePresent_runAttempts_true (net : NetModel) :
    ∀ (l : List Nat) (fc : Bool), (runAttempts net true fc l).filePresent = true := by
  intro l
  induction l with
  | nil => intro fc; simp [runAttempts]
  | cons i rest ih =>
    intro fc
    simp only [runAttempts]
    cases hh : net.head i with
    | status s =>
      by_cases h4 : s = 404
      · simp [h4]
      · rw [if_pos (by simp [h4])]
        cases hg : net.get i with
        | ok => simp
        | okWriteFail =>
          by_cases hre : rest.isEmpty
          · simp [hre]
          · simp [hre, ih]
        | httpErr s2 =>
          by_cases h42 : s2 = 404
          · simp [h42]
          · by_cases hre : rest.isEmpty
            · simp [h42, hre]
            · simp [h42, hre, ih]
        | netErr =>
          by_cases hre : rest.isEmpty
          · simp [hre]
          · simp [hre, ih]
    | err =>
      cases hg : net.get i with
      | ok => simp
      | okWriteFail =>
        by_cases hre : rest.isEmpty
        · simp [hre]
        · simp [hre, ih]
      | httpErr s2 =>
        by_cases h42 : s2 = 404
        · simp [h42]
        · by_cases hre : rest.isEmpty
          · simp [h42, hre]
          · simp [h42, hre, ih]
      | netErr =>
        by_cases hre : rest.isEmpty
        · simp [hre]
        · simp [hre, ih]

/-- A successful loop leaves a (complete) file at the final path. -/
theorem success_filePresent (net : NetModel) :
    ∀ (l : List Nat) (fp fc : Bool),
      (runAttempts net fp fc l).success = true →
      (runAttempts net fp fc l).filePresent = true := by
  intro l
  induction l with
  | nil => intro fp fc h; simp [runAttempts] at h
  | cons i rest ih =>
    intro fp fc
    simp only [runAttempts]
    cases hh : net.head i with
    | status s =>
      by_cases h4 : s = 404
      · simp [h4]
      · rw [if_pos (by simp [h4])]
        cases hg : net.get i with
        | ok => simp
        | okWriteFail =>
          by_cases hre : rest.isEmpty
          · simp [hre]
          · simp only [hre, if_neg Bool.false_ne_true]
            intro h
            simpa using filePresent_runAttempts_true net rest false
        | httpErr s2 =>
          by_cases h42 : s2 = 404
          · simp [h42]
          · by_cases hre : rest.isEmpty
            · simp [h42, hre]
            · simp only [if_neg h42, if_neg (by simp [hre] : ¬rest.isEmpty = true)]
              intro h
              exact ih fp fc h
        | netErr =>
          by_cases hre : rest.isEmpty
          · simp [hre]
          · simp only [if_neg (by simp [hre] : ¬rest.isEmpty = true)]
            intro h
            exact ih fp fc h
    | err =>
      cases hg : net.get i with
      | ok => simp
      | okWriteFail =>
        by_cases hre : rest.isEmpty
        · simp [hre]
        · simp only [if_neg (by simp [hre] : ¬rest.isEmpty = true)]
          intro h
          simpa using filePresent_runAttempts_true net rest false
      | httpErr s2 =>
        by_cases h42 : s2 = 404
        · simp [h42]
        · by_cases hre : rest.isEmpty
          · simp [h42, hre]
          · simp only [if_neg h42, if_neg (by simp [hre] : ¬rest.isEmpty = true)]
            intro h
            exact ih fp fc h
      | netErr =>
        by_cases hre : rest.isEmpty
        · simp [hre]
        · simp only [if_neg (by simp [hre] : ¬rest.isEmpty = true)]
          intro h
          exact ih fp fc h

/-- A single `cacheImageIfNeeded` call completes at most one download. -/
theorem cacheCall_downloads_le_one (net : NetModel) (fe fc : Bool) (base sub : String) :
    downloads (cacheImageIfNeeded net fe fc base sub).trace ≤ 1 := by
  cases fe with
  | true => simp [cacheImageIfNeeded, downloads]
  | false =>
    by_cases hs : (runAttempts net false false [1, 2, 3]).success = true
    · simp [cacheImageIfNeeded, hs, downloads_runAttempts]
    · simp [cacheImageIfNeeded, hs, downloads_runAttempts]

/-- If no file is left at the key path, no download completed. -/
theorem cacheCall_no_file_no_download (net : NetModel) (fe fc : Bool) (base sub : String)
    (h : (cacheImageIfNeeded net fe fc base sub).filePresent = false) :
    downloads (cacheImageIfNeeded net fe fc base sub).trace = 0 := by
  cases fe with
  | true => simp [cacheImageIfNeeded] at h
  | false =>
    by_cases hs : (runAttempts net false false [1, 2, 3]).success = true
    · exfalso
      have := success_filePresent net [1, 2, 3] false false hs
      simp [cacheImageIfNeeded, hs] at h
      simp [h] at this
    · simp [cacheImageIfNeeded, hs, downloads_runAttempts]

/-- A call on an existing file is a pure store hit. -/
theorem cacheCall_hit (net : NetModel) (fc : Bool) (base sub : String) :
    cacheImageIfNeeded net true fc base sub = ⟨some (cdnUrl base sub), [], true, fc⟩ := by
  simp [cacheImageIfNeeded]

/-- A call that returned a URL left a file at the key path. -/
theorem cacheCall_isSome_filePresent (net : NetModel) (fe fc : Bool) (base sub : String)
    (h : (cacheImageIfNeeded net fe fc base sub).result.isSome = true) :
    (cacheImageIfNeeded net fe fc base sub).filePresent = true := by
  cases fe with
  | true => simp [cacheImageIfNeeded]
  | false =>
    by_cases hs : (runAttempts net false false [1, 2, 3]).success = true
    · simp [cacheImageIfNeeded, hs]
      exact success_filePresent net [1, 2, 3] false false hs
    · simp [cacheImageIfNeeded, hs] at h

/-- C1: if a file already exists at the key's local path, `cacheImageIfNeeded`
performs no network operation and returns the store's public URL for that
key; consequently two successive calls with the same (sourceUrl, subpath)
complete at most one download between them, and whenever the first call
returned a URL the second call touches no network at all and returns the
same public URL (a store hit). -/
theorem C1_store_hit_single_download (net net2 : NetModel) (fe fc : Bool) (base sub : String) :
    ((cacheImageIfNeeded net true fc base sub).trace = [] ∧
      (cacheImageIfNeeded net true fc base sub).result = some (cdnUrl base sub)) ∧
    downloads (cacheImageIfNeeded net fe fc base sub).trace +
      downloads (cacheImageIfNeeded net2 (cacheImageIfNeeded net fe fc base sub).filePresent
        (cacheImageIfNeeded net fe fc base sub).fileComplete base sub).trace ≤ 1 ∧
    ((cacheImageIfNeeded net fe fc base sub).result.isSome = true →
      (cacheImageIfNeeded net2 (cacheImageIfNeeded net fe fc base sub).filePresent
        (cacheImageIfNeeded net fe fc base sub).fileComplete base sub).trace = [] ∧
      (cacheImageIfNeeded net2 (cacheImageIfNeeded net fe fc base sub).filePresent
        (cacheImageIfNeeded net fe fc base sub).fileComplete base sub).result =
        some (cdnUrl base sub)) := by
  refine ⟨⟨by simp [cacheCall_hit], by simp [cacheCall_hit]⟩, ?_, ?_⟩
  · by_cases hfp : (cacheImageIfNeeded net fe fc base sub).filePresent = true
    · rw [hfp, cacheCall_hit]
      have h1 := cacheCall_downloads_le_one net fe fc base sub
      simpa [downloads] using h1
    · have h0 := cacheCall_no_file_no_download net fe fc base sub (by
        cases hv : (cacheImageIfNeeded net fe fc base sub).filePresent
        · rfl
        · exact absurd hv hfp)
      rw [h0]
      have hfp0 : (cacheImageIfNeeded net fe fc base sub).filePresent = false := by
        cases hv : (cacheImageIfNeeded net fe fc base sub).filePresent
        · rfl
        · exact absurd hv hfp
      rw [hfp0]
      simpa using cacheCall_downloads_le_one net2 false
        (cacheImageIfNeeded net fe fc base sub).fileComplete base sub
  · intro h
    have hfp := cacheCall_isSome_filePresent net fe fc base sub h
    rw [hfp, cacheCall_hit]
    exact ⟨rfl, rfl⟩

/-- C1 witness: a concrete first call that downloads successfully, after
which the second call is a store hit returning the public URL. -/
theorem C1_store_hit_single_download_witness :
    (cacheImageIfNeeded ⟨fun _ => HeadOutcome.err, fun _ => GetOutcome.ok⟩ false false
        "https://proxy" "nasa/apod/apod_2024-08-10.jpg").result.isSome = true ∧
    (cacheImageIfNeeded ⟨fun _ => HeadOutcome.err, fun _ => GetOutcome.netErr⟩
        (cacheImageIfNeeded ⟨fun _ => HeadOutcome.err, fun _ => GetOutcome.ok⟩ false false
          "https://proxy" "nasa/apod/apod_2024-08-10.jpg").filePresent
        (cacheImageIfNeeded ⟨fun _ => HeadOutcome.err, fun _ => GetOutcome.ok⟩ false false
          "https://proxy" "nasa/apod/apod_2024-08-10.jpg").fileComplete
        "https://proxy" "nasa/apod/apod_2024-08-10.jpg").trace = [] :=
  ⟨by decide,
    ((C1_store_hit_single_download ⟨fun _ => HeadOutcome.err, fun _ => GetOutcome.ok⟩
        ⟨fun _ => HeadOutcome.err, fun _ => GetOutcome.netErr⟩ false false
        "https://proxy" "nasa/apod/apod_2024-08-10.jpg").2.2 (by decide)).1⟩

/-- C10: `cacheImageIfNeeded` is total at its interface: for every network
behaviour and prior file state its value is the public URL exactly when
the file already existed or the download loop succeeded, and `null`
otherwise — every internal failure (DNS, HEAD, GET, retry exhaustion,
write error) is absorbed into the `none` result, never an exception. -/
theorem C10_cache_total_interface (net : NetModel) (fe fc : Bool) (base sub : String) :
    (cacheImageIfNeeded net fe fc base sub).result =
      if fe = true ∨ (runAttempts net false false [1, 2, 3]).success = true
      then some (cdnUrl base sub) else none := by
  cases fe with
  | true => simp [cacheImageIfNeeded]
  | false =>
    by_cases hs : (runAttempts net false false [1, 2, 3]).success = true
    · simp [cacheImageIfNeeded, hs]
    · simp [cacheImageIfNeeded, hs]

/-- C9 (code evaluated at the failing input): when every GET succeeds but
the write stream errors, the call returns `null` yet a partial file is
left visible at the final key path, and a subsequent call for the same key
trusts it as a store hit — so an observable file at the final path need
not contain the complete downloaded content. -/
theorem C9_partial_file_left_visible :
    (cacheImageIfNeeded ⟨fun _ => HeadOutcome.err, fun _ => GetOutcome.okWriteFail⟩ false false
        "https://proxy" "nasa/epic/2024/08/10/epic_1b_20240810000000.png").result = none ∧
    (cacheImageIfNeeded ⟨fun _ => HeadOutcome.err, fun _ => GetOutcome.okWriteFail⟩ false false
        "https://proxy" "nasa/epic/2024/08/10/epic_1b_20240810000000.png").filePresent = true ∧
    (cacheImageIfNeeded ⟨fun _ => HeadOutcome.err, fun _ => GetOutcome.okWriteFail⟩ false false
        "https://proxy" "nasa/epic/2024/08/10/epic_1b_20240810000000.png").fileComplete = false ∧
    (cacheImageIfNeeded ⟨fun _ => HeadOutcome.err, fun _ => GetOutcome.okWriteFail⟩ true false
        "https://proxy" "nasa/epic/2024/08/10/epic_1b_20240810000000.png").result =
      some (cdnUrl "https://proxy" "nasa/epic/2024/08/10/epic_1b_20240810000000.png") ∧
    (cacheImageIfNeeded ⟨fun _ => HeadOutcome.err, fun _ => GetOutcome.okWriteFail⟩ true false
        "https://proxy" "nasa/epic/2024/08/10/epic_1b_20240810000000.png").trace = [] := by
  decide

/-- A HEAD preflight reporting 404 ends the loop at once: no GET, no
backoff, failure. -/
theorem runAttempts_head404 (net : NetModel) (fp fc : Bool) (i : Nat) (rest : List Nat)
    (h : net.head i = .status 404) :
    runAttempts net fp fc (i :: rest) = ⟨false, [.headPre i], fp, fc⟩ := by
  simp [runAttempts, h]

/-- A GET rejecting with 404 (after a non-404 HEAD) ends the loop at once:
no backoff, failure. -/
theorem runAttempts_get404 (net : NetModel) (fp fc : Bool) (i : Nat) (rest : List Nat)
    (hh : net.head i ≠ .status 404) (hg : net.get i = .httpErr 404) :
    runAttempts net fp fc (i :: rest) = ⟨false, [.headPre i, .getAttempt i], fp, fc⟩ := by
  simp only [runAttempts]
  cases hhv : net.head i with
  | status s =>
    have hs : s ≠ 404 := by
      intro he
      exact hh (by rw [hhv, he])
    rw [if_pos (by simp [hs])]
    simp [hg]
  | err => simp [hg]

/-- A GET rejecting with any non-404 status retries with a backoff when
attempts remain. -/
theorem runAttempts_retry_httpErr (net : NetModel) (fp fc : Bool) (i j : Nat)
    (rest : List Nat) (s : Nat) (hh : net.head i ≠ .status 404)
    (hg : net.get i = .httpErr s) (h4 : s ≠ 404) :
    runAttempts net fp fc (i :: j :: rest) =
      ⟨(runAttempts net fp fc (j :: rest)).success,
        .headPre i :: .getAttempt i :: .backoff (300 * 2 ^ (i - 1)) ::
          (runAttempts net fp fc (j :: rest)).trace,
        (runAttempts net fp fc (j :: rest)).filePresent,
        (runAttempts net fp fc (j :: rest)).fileComplete⟩ := by
  simp only [runAttempts]
  cases hhv : net.head i with
  | status s2 =>
    have hs : s2 ≠ 404 := by
      intro he
      exact hh (by rw [hhv, he])
    rw [if_pos (by simp [hs])]
    simp [hg, h4]
  | err => simp [hg, h4]

/-- C3: a candidate URL whose HEAD preflight or GET attempt yields HTTP 404
stops the download loop at that attempt with no further retry and no
backoff delay; `cacheImageIfNeeded` then returns null for the candidate,
and a failed candidate makes the resolution strategy consult the next
candidate in order. -/
theorem C3_404_no_retry (net : NetModel) (fp fc : Bool) (i : Nat) (rest : List Nat)
    (base sub : String) (cache : String → String → Option String) (c : Cand) (cs : List Cand)
    (h : net.head i = HeadOutcome.status 404 ∨ net.get i = GetOutcome.httpErr 404) :
    ((runAttempts net fp fc (i :: rest)).success = false ∧
      (∀ ms, Ev.backoff ms ∉ (runAttempts net fp fc (i :: rest)).trace) ∧
      (∀ j, Ev.getAttempt j ∈ (runAttempts net fp fc (i :: rest)).trace → j = i) ∧
      (∀ j, Ev.headPre j ∈ (runAttempts net fp fc (i :: rest)).trace → j = i)) ∧
    (i = 1 → rest = [2, 3] →
      (cacheImageIfNeeded net false fc base sub).result = none ∧
      (∀ ms, Ev.backoff ms ∉ (cacheImageIfNeeded net false fc base sub).trace)) ∧
    (cache c.url c.sub = none →
      tryCands cache (c :: cs) = ((tryCands cache cs).1, c :: (tryCands cache cs).2)) := by
  have hrun : runAttempts net fp fc (i :: rest) = ⟨false, [.headPre i], fp, fc⟩ ∨
      runAttempts net fp fc (i :: rest) = ⟨false, [.headPre i, .getAttempt i], fp, fc⟩ := by
    by_cases hh : net.head i = HeadOutcome.status 404
    · exact Or.inl (runAttempts_head404 net fp fc i rest hh)
    · rcases h with h | h
      · exact absurd h hh
      · exact Or.inr (runAttempts_get404 net fp fc i rest hh h)
  refine ⟨?_, ?_, ?_⟩
  · rcases hrun with hr | hr
    · rw [hr]
      refine ⟨rfl, ?_, ?_, ?_⟩
      · intro ms
        simp
      · intro j hj
        simp at hj
      · intro j hj
        simpa using hj
    · rw [hr]
      refine ⟨rfl, ?_, ?_, ?_⟩
      · intro ms
        simp
      · intro j hj
        simpa using hj
      · intro j hj
        simpa using hj
  · intro hi hrest
    subst hi
    subst hrest
    have hr2 : runAttempts net false false [1, 2, 3] = ⟨false, [.headPre 1], false, false⟩ ∨
        runAttempts net false false [1, 2, 3] =
          ⟨false, [.headPre 1, .getAttempt 1], false, false⟩ := by
      by_cases hh : net.head 1 = HeadOutcome.status 404
      · exact Or.inl (runAttempts_head404 net false false 1 [2, 3] hh)
      · rcases h with h | h
        · exact absurd h hh
        · exact Or.inr (runAttempts_get404 net false false 1 [2, 3] hh h)
    rcases hr2 with hr | hr
    · refine ⟨by simp [cacheImageIfNeeded, hr], ?_⟩
      intro ms
      simp [cacheImageIfNeeded, hr]
    · refine ⟨by simp [cacheImageIfNeeded, hr], ?_⟩
      intro ms
      simp [cacheImageIfNeeded, hr]
  · intro hc
    simp [tryCands, hc]

/-- C3 witness: a HEAD 404 on the first attempt makes the call return null
with no backoff. -/
theorem C3_404_no_retry_witness :
    (cacheImageIfNeeded ⟨fun _ => HeadOutcome.status 404, fun _ => GetOutcome.netErr⟩
        false false "https://proxy" "nasa/apod/a.jpg").result = none :=
  ((C3_404_no_retry ⟨fun _ => HeadOutcome.status 404, fun _ => GetOutcome.netErr⟩
      false false 1 [2, 3] "https://proxy" "nasa/apod/a.jpg" (fun _ _ => none)
      ⟨"u", "s", "o"⟩ [] (Or.inl rfl)).2.1 rfl rfl).1

/-- C4 counterexample: in the image-download loop a 4xx other than 429
does NOT abort — a GET rejecting with 403 on every attempt is retried with
backoff through all 3 attempts, contradicting the claim that any 4xx
other than 429 aborts the attempt loop immediately on the image path. -/
theorem C4_counterexample :
    (runAttempts ⟨fun _ => HeadOutcome.err, fun _ => GetOutcome.httpErr 403⟩
        false false [1, 2, 3]).trace =
      [Ev.headPre 1, Ev.getAttempt 1, Ev.backoff 300,
       Ev.headPre 2, Ev.getAttempt 2, Ev.backoff 600,
       Ev.headPre 3, Ev.getAttempt 3] := by
  decide

/-- C4 (amended): on the JSON-metadata path any 4xx other than 429 aborts
the attempt loop at once with no retry, and 429 is retried to the attempt
budget with exponentially growing delay (one backoff of 250 ms at the
default budget of 2); on the image-download path only 404 aborts — any
other rejection status, 429 included, is retried to the 3-attempt budget
with strictly increasing delays 300, 600 ms. -/
theorem C4_amended_retry_policy :
    (∀ (net : Nat → JsonOutcome) (d i : Nat) (rest : List Nat) (s : Nat),
      400 ≤ s → s < 500 → s ≠ 429 → net i = JsonOutcome.httpErr s →
      fetchJsonRun net d (i :: rest) = (false, [Ev.getAttempt i])) ∧
    (∀ net : Nat → JsonOutcome,
      net 1 = JsonOutcome.httpErr 429 → net 2 = JsonOutcome.httpErr 429 →
      fetchJsonRun net 250 [1, 2] =
        (false, [Ev.getAttempt 1, Ev.backoff 250, Ev.getAttempt 2])) ∧
    (∀ (net : NetModel) (fp fc : Bool) (i j : Nat) (rest : List Nat) (s : Nat),
      net.head i ≠ HeadOutcome.status 404 → net.get i = GetOutcome.httpErr s → s ≠ 404 →
      runAttempts net fp fc (i :: j :: rest) =
        ⟨(runAttempts net fp fc (j :: rest)).success,
          Ev.headPre i :: Ev.getAttempt i :: Ev.backoff (300 * 2 ^ (i - 1)) ::
            (runAttempts net fp fc (j :: rest)).trace,
          (runAttempts net fp fc (j :: rest)).filePresent,
          (runAttempts net fp fc (j :: rest)).fileComplete⟩) ∧
    (∀ net : NetModel, (∀ i, net.head i = HeadOutcome.err) →
      net.get 1 = GetOutcome.httpErr 429 → net.get 2 = GetOutcome.httpErr 429 →
      net.get 3 = GetOutcome.httpErr 429 →
      (runAttempts net false false [1, 2, 3]).trace =
        [Ev.headPre 1, Ev.getAttempt 1, Ev.backoff 300,
         Ev.headPre 2, Ev.getAttempt 2, Ev.backoff 600,
         Ev.headPre 3, Ev.getAttempt 3] ∧ (300 : Nat) < 600) := by
  refine ⟨?_, ?_, ?_, ?_⟩
  · intro net d i rest s h1 h2 h3 hn
    simp [fetchJsonRun, hn, h1, h2, h3]
  · intro net h1 h2
    simp [fetchJsonRun, h1, h2]
  · intro net fp fc i j rest s hh hg h4
    exact runAttempts_retry_httpErr net fp fc i j rest s hh hg h4
  · intro net hh h1 h2 h3
    refine ⟨?_, by omega⟩
    rw [runAttempts_retry_httpErr net false false 1 2 [3] 429 (by simp [hh]) h1 (by omega)]
    rw [runAttempts_retry_httpErr net false false 2 3 [] 429 (by simp [hh]) h2 (by omega)]
    have hlast : runAttempts net false false [3] =
        ⟨false, [Ev.headPre 3, Ev.getAttempt 3], false, false⟩ := by
      simp [runAttempts, hh 3, h3]
    rw [hlast]
    simp

/-- C4 amended witness: the JSON path retried through the budget on 429
with the 250 ms backoff. -/
theorem C4_amended_retry_policy_witness :
    fetchJsonRun (fun _ => JsonOutcome.httpErr 429) 250 [1, 2] =
      (false, [Ev.getAttempt 1, Ev.backoff 250, Ev.getAttempt 2]) :=
  C4_amended_retry_policy.2.1 (fun _ => JsonOutcome.httpErr 429) rfl rfl

/-- The display/caching step never touches the thumbnail field. -/
theorem apodDisplay_thumbnail (cache : String → Option String) (d : ApodData) :
    (apodDisplay cache d).thumbnail_url = d.thumbnail_url := by
  unfold apodDisplay
  dsimp only
  repeat' split
  all_goals rfl

/-- In the video-with-URL branch the media kind is unchanged. -/
theorem apodTransform_video_branch_media (r : ApodData)
    (hb : (r.media_type == "video" && truthyStr r.url) = true) :
    (apodTransform r).media_type = r.media_type := by
  unfold apodTransform
  rw [if_pos hb]
  dsimp only
  repeat' split
  all_goals rfl

/-- C7: for a day-picture record of media kind video whose URL is a
YouTube-style URL from which an 11-character video id is extracted, the
response's thumbnail_url is exactly the hqdefault.jpg convention for that
id. -/
theorem C7_youtube_thumbnail (cache : String → Option String) (today : String)
    (r : ApodData) (vid : String)
    (h1 : r.media_type = "video") (h2 : truthyStr r.url = true)
    (h3 : (jsIncludes (r.url.getD "") "youtube.com" ||
           jsIncludes (r.url.getD "") "youtu.be") = true)
    (h4 : extractYouTubeId (r.url.getD "") = some vid) :
    ((apodHandler cache today (some r)).2).thumbnail_url =
      some ("https://img.youtube.com/vi/" ++ vid ++ "/hqdefault.jpg") := by
  show (apodDisplay cache (apodTransform r)).thumbnail_url = _
  rw [apodDisplay_thumbnail]
  unfold apodTransform
  rw [if_pos (by simp [h1, h2])]
  simp [h3, h4]

/-- C7 witness: a concrete YouTube video record. -/
theorem C7_youtube_thumbnail_witness :
    ((apodHandler (fun _ => none) "2024-08-10"
        (some { title := "t", media_type := "video",
                url := some "https://www.youtube.com/watch?v=dQw4w9WgXcQ",
                hdurl := none, explanation := none, date := "2024-08-10" })).2).thumbnail_url =
      some "https://img.youtube.com/vi/dQw4w9WgXcQ/hqdefault.jpg" :=
  C7_youtube_thumbnail (fun _ => none) "2024-08-10"
    { title := "t", media_type := "video",
      url := some "https://www.youtube.com/watch?v=dQw4w9WgXcQ",
      hdurl := none, explanation := none, date := "2024-08-10" }
    "dQw4w9WgXcQ" rfl (by decide) (by decide) (by decide)

/-- In the reclassification branch the record becomes a NASA-hosted video,
and when it has no (truthy) URL it gains the synthetic per-day archive
page URL. -/
theorem apodTransform_reclass (r : ApodData)
    (hb1 : ¬(r.media_type == "video" && truthyStr r.url) = true)
    (hb2 : (r.media_type == "other" ||
        (truthyStr r.explanation && hasVideoTerms (r.explanation.getD ""))) = true) :
    (apodTransform r).media_type = "video" ∧ (apodTransform r).isNasaHosted = true ∧
    (truthyStr r.url = false →
      (apodTransform r).video_url = some (apodPageUrl r.date) ∧
      (apodTransform r).url = some (apodPageUrl r.date)) := by
  unfold apodTransform
  rw [if_neg hb1, if_pos hb2]
  dsimp only
  by_cases hu : truthyStr r.url = true
  · rw [if_pos hu]
    refine ⟨rfl, rfl, ?_⟩
    intro hfalse
    simp [hfalse] at hu
  · rw [if_neg hu]
    exact ⟨rfl, rfl, fun _ => ⟨rfl, rfl⟩⟩

/-- When neither branch fires the record is returned unchanged. -/
theorem apodTransform_no_branch (r : ApodData)
    (hb1 : ¬(r.media_type == "video" && truthyStr r.url) = true)
    (hb2 : ¬(r.media_type == "other" ||
        (truthyStr r.explanation && hasVideoTerms (r.explanation.getD ""))) = true) :
    apodTransform r = r := by
  unfold apodTransform
  rw [if_neg hb1, if_neg hb2]

/-- C8 counterexample: an `image`-tagged record whose explanation mentions
"video" IS reclassified to `video` (first two conjuncts), and an
`other`-tagged record with no video/animation/time-lapse terms is also
reclassified (last two conjuncts) — refuting "exactly when it is tagged as
the miscellaneous kind and its explanatory text contains such terms". -/
theorem C8_counterexample :
    (apodTransform
      { title := "t", media_type := "image",
        url := some "https://example.com/a.jpg", hdurl := none,
        explanation := some "A stunning video of the solar corona.",
        date := "2024-01-02" }).media_type = "video" ∧
    ({ title := "t", media_type := "image",
       url := some "https://example.com/a.jpg", hdurl := none,
       explanation := some "A stunning video of the solar corona.",
       date := "2024-01-02" } : ApodData).media_type = "image" ∧
    (apodTransform
      { title := "t", media_type := "other",
        url := some "https://example.com/b.jpg", hdurl := none,
        explanation := some "A strange sight.",
        date := "2024-01-03" }).media_type = "video" ∧
    hasVideoTerms "A strange sight." = false := by
  refine ⟨by decide, rfl, by decide, by decide⟩

/-- C8 (amended): a record is reclassified to `video` exactly when the
video-with-URL branch does not apply and it is either tagged `other` or
its (present, non-empty) explanation mentions video / animation /
time-lapse, case-insensitively; in that branch a record with no truthy URL
gains the synthetic per-day archive page URL derived from its date. -/
theorem C8_amended_reclassification (r : ApodData) :
    ((apodTransform r).media_type = "video" ↔
      (r.media_type = "video" ∨ r.media_type = "other" ∨
        (truthyStr r.explanation = true ∧ hasVideoTerms (r.explanation.getD "") = true))) ∧
    (¬(r.media_type = "video" ∧ truthyStr r.url = true) →
      (r.media_type = "other" ∨
        (truthyStr r.explanation = true ∧ hasVideoTerms (r.explanation.getD "") = true)) →
      truthyStr r.url = false →
      (apodTransform r).media_type = "video" ∧ (apodTransform r).isNasaHosted = true ∧
      (apodTransform r).video_url = some (apodPageUrl r.date) ∧
      (apodTransform r).url = some (apodPageUrl r.date)) := by
  by_cases hb1 : (r.media_type == "video" && truthyStr r.url) = true
  · have hb1' := hb1
    simp only [Bool.and_eq_true, beq_iff_eq] at hb1'
    have hmu := apodTransform_video_branch_media r hb1
    constructor
    · rw [hmu, hb1'.1]
      simp
    · intro hno _ _
      exact absurd ⟨hb1'.1, hb1'.2⟩ hno
  · by_cases hb2 : (r.media_type == "other" ||
        (truthyStr r.explanation && hasVideoTerms (r.explanation.getD ""))) = true
    · have h := apodTransform_reclass r hb1 hb2
      constructor
      · rw [h.1]
        constructor
        · intro _
          simp only [Bool.or_eq_true, beq_iff_eq, Bool.and_eq_true] at hb2
          rcases hb2 with h2 | h2
          · exact Or.inr (Or.inl h2)
          · exact Or.inr (Or.inr ⟨h2.1, h2.2⟩)
        · intro _
          rfl
      · intro _ _ hfu
        exact ⟨h.1, h.2.1, (h.2.2 hfu).1, (h.2.2 hfu).2⟩
    · have heq : apodTransform r = r := apodTransform_no_branch r hb1 hb2
      constructor
      · rw [heq]
        constructor
        · intro hv
          exact Or.inl hv
        · intro hrhs
          rcases hrhs with hv | hv | hv
          · exact hv
          · exact absurd (by simp [hv] : (r.media_type == "other" ||
              (truthyStr r.explanation && hasVideoTerms (r.explanation.getD ""))) = true) hb2
          · exact absurd (by simp [hv.1, hv.2] : (r.media_type == "other" ||
              (truthyStr r.explanation && hasVideoTerms (r.explanation.getD ""))) = true) hb2
      · intro _ habs _
        exfalso
        rcases habs with hv | hv
        · exact hb2 (by simp [hv])
        · exact hb2 (by simp [hv.1, hv.2])

/-- C8 amended witness: an `other`-tagged record with no URL becomes a
video pointing at the synthetic archive page for its date. -/
theorem C8_amended_reclassification_witness :
    (apodTransform
      { title := "t", media_type := "other", url := none, hdurl := none,
        explanation := none, date := "2024-08-10" }).media_type = "video" ∧
    (apodTransform
      { title := "t", media_type := "other", url := none, hdurl := none,
        explanation := none, date := "2024-08-10" }).url =
      some (apodPageUrl "2024-08-10") :=
  have h := (C8_amended_reclassification
    { title := "t", media_type := "other", url := none, hdurl := none,
      explanation := none, date := "2024-08-10" }).2
    (by simp) (Or.inl rfl) rfl
  ⟨h.1, h.2.2.2⟩

/-- When every upstream fetch fails, the date loop yields nothing. -/
theorem tryDates_all_none (fetch : String → Option String → Option (List EpicItem))
    (c : String) (h : ∀ c2 d0, fetch c2 d0 = none) :
    ∀ cands, (tryDates fetch c cands).1 = none := by
  intro cands
  induction cands with
  | nil => rfl
  | cons d ds ih =>
    simp only [tryDates, h c (some d), nonEmptyItems]
    exact ih

/-- When every upstream fetch fails, a collection iteration ends with
`items` still null. -/
theorem runOneCollection_all_none (fetch : String → Option String → Option (List EpicItem))
    (c : String) (cands : List String) (h : ∀ c2 d0, fetch c2 d0 = none) :
    (runOneCollection fetch c cands none).1 = none := by
  unfold runOneCollection
  dsimp only
  rw [tryDates_all_none fetch c h cands]
  simp [h c none]

/-- When every upstream fetch fails, the whole strategy ends with `items`
null (and the handler therefore throws into the fallback branch). -/
theorem runStrategy_all_none (fetch : String → Option String → Option (List EpicItem))
    (avail : String → List String) (dp : Option String) (y : String)
    (h : ∀ c2 d0, fetch c2 d0 = none) :
    ∀ (cols : List String) (u : String),
      (runStrategy fetch avail dp y cols none u).2.1 = none := by
  intro cols
  induction cols with
  | nil => intro u; rfl
  | cons c cs ih =>
    intro u
    simp only [runStrategy]
    have h1 : (runOneCollection fetch c (candidateDates dp (avail c) y) none).1 = none :=
      runOneCollection_all_none fetch c _ h
    rw [h1]
    simp only [nonEmptyItems]
    exact ih c

/-- C2 counterexample: in the EPIC-bearing variant a feed request can
receive an error status.  A single `fetchJsonWithRetry` call whose two
attempts both run to the 15 s per-attempt axios timeout lasts
15000 + 250 + 15000 = 30250 ms, which exceeds ROUTE_TIMEOUT_MS = 20000,
and when the deadline elapses before the handler responds, the variant's
timeout middleware (src/unnamed/part_000 lines 505-511) answers
504 Gateway Timeout — refuting "the HTTP response status is 200 ...,
never an error status". -/
theorem C2_counterexample :
    traceDuration 15000 (fetchJsonRun (fun _ => JsonOutcome.netErr) 250 [1, 2]).2 = 30250 ∧
    ROUTE_TIMEOUT_MS < 30250 ∧
    epicRoute ROUTE_TIMEOUT_MS 30250 "/api/nasa/epic"
        (epicHandler (fun _ _ => none) (fun _ _ => none) (fun _ => []) true "k"
          none "natural" "2024-08-09") =
      (504, EpicRouteBody.timeoutError "/api/nasa/epic") ∧
    (504 : Nat) ≠ 200 := by
  refine ⟨by decide, by decide, ?_, by decide⟩
  unfold epicRoute
  rw [if_pos (by decide)]

/-- C2 (amended): every response written by the feed handlers themselves
carries status 200 — on unrecoverable upstream failure exactly the
built-in Earthrise fallback (title "Earthrise", date = today, display_url
pointing at the Earthrise image) for the day-picture and exactly the
built-in single-element fallback array for the earth-image, carrying
image_url/original_url exactly when the fallback's own one-shot
resolution found a candidate.  The day-picture route of src/server.js
therefore always answers 200 (its middleware never writes a response);
in the EPIC-bearing variant the route answers 200 with the handler body
exactly when the handler finishes within ROUTE_TIMEOUT_MS, and the
timeout middleware answers 504 Gateway Timeout when the deadline elapses
first. -/
theorem C2_amended_status_and_fallback :
    (∀ (cache : String → Option String) (today : String) (up : Option ApodData),
      (apodHandler cache today up).1 = 200) ∧
    (∀ (cache : String → String → Option String)
      (fetch : String → Option String → Option (List EpicItem))
      (avail : String → List String) (kp : Bool) (key : String)
      (dp : Option String) (rc y : String),
      (epicHandler cache fetch avail kp key dp rc y).1 = 200) ∧
    (∀ (timeoutMs handlerMs : Nat) (route : String) (resp : Nat × List EpicOut),
      ¬(timeoutMs < handlerMs) →
      epicRoute timeoutMs handlerMs route resp = (resp.1, EpicRouteBody.items resp.2)) ∧
    (∀ (timeoutMs handlerMs : Nat) (route : String) (resp : Nat × List EpicOut),
      timeoutMs < handlerMs →
      epicRoute timeoutMs handlerMs route resp = (504, EpicRouteBody.timeoutError route)) ∧
    (∀ (cache : String → String → Option String)
      (fetch : String → Option String → Option (List EpicItem))
      (avail : String → List String) (kp : Bool) (key : String)
      (dp : Option String) (rc y route : String) (handlerMs : Nat),
      ¬(ROUTE_TIMEOUT_MS < handlerMs) →
      (epicRoute ROUTE_TIMEOUT_MS handlerMs route
        (epicHandler cache fetch avail kp key dp rc y)).1 = 200) ∧
    (∀ (cache : String → Option String) (today : String),
      (apodHandler cache today none).2 = apodFallback today ∧
      (apodFallback today).title = "Earthrise" ∧ (apodFallback today).date = today ∧
      (apodFallback today).display_url = some earthriseUrl) ∧
    (∀ (cache : String → String → Option String)
      (fetch : String → Option String → Option (List EpicItem))
      (avail : String → List String) (key : String)
      (dp : Option String) (rc y : String),
      (∀ c2 d0, fetch c2 d0 = none) →
      (epicHandler cache fetch avail true key dp rc y).2 = epicFallbackBody cache true key) ∧
    (∀ (cache : String → String → Option String)
      (fetch : String → Option String → Option (List EpicItem))
      (avail : String → List String) (key : String)
      (dp : Option String) (rc y : String),
      (epicHandler cache fetch avail false key dp rc y).2 = epicFallbackBody cache false key) ∧
    (∀ (cache : String → String → Option String) (kp : Bool) (key : String),
      (fallbackResolve cache kp key = none →
        epicFallbackBody cache kp key = [{ item := epicFallbackItem }]) ∧
      (∀ ch, fallbackResolve cache kp key = some ch →
        epicFallbackBody cache kp key =
          [{ item := epicFallbackItem, image_url := some ch.cdn,
             original_url := some ch.original }])) := by
  have hstatus : ∀ (cache : String → String → Option String)
      (fetch : String → Option String → Option (List EpicItem))
      (avail : String → List String) (kp : Bool) (key : String)
      (dp : Option String) (rc y : String),
      (epicHandler cache fetch avail kp key dp rc y).1 = 200 := by
    intro cache fetch avail kp key dp rc y
    unfold epicHandler
    cases kp with
    | false => rfl
    | true =>
      dsimp only
      repeat' split
      all_goals rfl
  refine ⟨?_, hstatus, ?_, ?_, ?_, ?_, ?_, ?_, ?_⟩
  · intro cache today up
    cases up <;> rfl
  · intro timeoutMs handlerMs route resp h
    unfold epicRoute
    rw [if_neg h]
  · intro timeoutMs handlerMs route resp h
    unfold epicRoute
    rw [if_pos h]
  · intro cache fetch avail kp key dp rc y route handlerMs h
    unfold epicRoute
    rw [if_neg h]
    exact hstatus cache fetch avail kp key dp rc y
  · intro cache today
    exact ⟨rfl, rfl, rfl, rfl⟩
  · intro cache fetch avail key dp rc y h
    unfold epicHandler
    dsimp only
    rw [runStrategy_all_none fetch avail dp y h]
    simp
  · intro cache fetch avail key dp rc y
    rfl
  · intro cache kp key
    constructor
    · intro h
      simp [epicFallbackBody, h]
    · intro ch h
      simp [epicFallbackBody, h]

/-- C2 amended witness: with a dead upstream the earth-image handler
serves the exact built-in fallback body. -/
theorem C2_amended_status_and_fallback_witness :
    (epicHandler (fun _ _ => none) (fun _ _ => none) (fun _ => []) true "k"
        none "natural" "2024-08-09").2 =
      epicFallbackBody (fun _ _ => none) true "k" :=
  C2_amended_status_and_fallback.2.2.2.2.2.2.1 (fun _ _ => none) (fun _ _ => none)
    (fun _ => []) "k" none "natural" "2024-08-09" (fun _ _ => rfl)

/-- The extension loop is the generic try-in-order combinator on the
mapped candidate list. -/
theorem tryExtLoop_eq_tryCands (cache : String → String → Option String)
    (mk : String → Cand) :
    ∀ es : List String, tryExtLoop cache mk es = tryCands cache (es.map mk) := by
  intro es
  induction es with
  | nil => rfl
  | cons e es2 ih =>
    simp only [tryExtLoop, tryCands, List.map_cons]
    rw [ih]

/-- C6: for every earth-image record being resolved (API key present, as
guaranteed inside the handler's try block), the per-record nested loops
are exactly the try-in-order combinator over the candidate list [primary
full-res png, primary full-res jpg, secondary full-res png, secondary
full-res jpg, primary thumbnail, secondary thumbnail]; a successful
candidate stops the iteration at once with the remaining candidates
unattempted, and once one record in the batch resolves, the remaining
records are skipped. -/
theorem C6_candidate_order (cache : String → String → Option String) (key coll : String)
    (item it2 : EpicItem) :
    (resolveRecord cache true key coll item =
      tryCands cache (epicCandList key coll (epicDateParts item.date).1
        (epicDateParts item.date).2.1 (epicDateParts item.date).2.2 item.image)) ∧
    (∀ (u : String) (c : Cand) (cs : List Cand), cache c.url c.sub = some u →
      tryCands cache (c :: cs) = (some ⟨u, c.orig⟩, [c])) ∧
    (∀ ch : Chosen, (resolveRecord cache true key coll item).1 = some ch →
      processRecords cache true key coll [item, it2] =
        ([{ item := item, image_url := some ch.cdn, original_url := some ch.original,
            collection := some coll }], [item])) := by
  have hmain : resolveRecord cache true key coll item =
      tryCands cache (epicCandList key coll (epicDateParts item.date).1
        (epicDateParts item.date).2.1 (epicDateParts item.date).2.2 item.image) := by
    unfold resolveRecord epicCandList
    dsimp only
    rw [tryExtLoop_eq_tryCands, tryExtLoop_eq_tryCands]
    simp only [List.map_cons, List.map_nil]
    set y := (epicDateParts item.date).1 with hy
    set m := (epicDateParts item.date).2.1 with hm
    set d := (epicDateParts item.date).2.2 with hd
    set g1 := gsfcFull coll y m d item.image "png" with hg1d
    set g2 := gsfcFull coll y m d item.image "jpg" with hg2d
    set a1 := apiFull key coll y m d item.image "png" with ha1d
    set a2 := apiFull key coll y m d item.image "jpg" with ha2d
    set t1 := gsfcThumb coll y m d item.image with ht1d
    set t2 := apiThumb key coll y m d item.image with ht2d
    rcases hg1 : cache g1.url g1.sub with _ | u1
    all_goals rcases hg2 : cache g2.url g2.sub with _ | u2
    all_goals rcases ha1 : cache a1.url a1.sub with _ | u3
    all_goals rcases ha2 : cache a2.url a2.sub with _ | u4
    all_goals rcases ht : cache t1.url t1.sub with _ | u5
    all_goals rcases hat : cache t2.url t2.sub with _ | u6
    all_goals simp [tryCands, hg1, hg2, ha1, ha2, ht, hat]
  refine ⟨hmain, ?_, ?_⟩
  · intro u c cs h
    simp [tryCands, h]
  · intro ch h
    simp [processRecords, h]

/-- C6 witness: with a universally succeeding cache oracle, the first
candidate wins immediately and the lone record resolves. -/
theorem C6_candidate_order_witness :
    tryCands (fun _ _ => some "https://proxy/cdn/x")
        (gsfcThumb "natural" "2024" "08" "10" "img" :: []) =
      (some ⟨"https://proxy/cdn/x", (gsfcThumb "natural" "2024" "08" "10" "img").orig⟩,
        [gsfcThumb "natural" "2024" "08" "10" "img"]) :=
  (C6_candidate_order (fun _ _ => some "https://proxy/cdn/x") "k" "natural"
    epicFallbackItem epicFallbackItem).2.1 "https://proxy/cdn/x"
    (gsfcThumb "natural" "2024" "08" "10" "img") [] rfl

/-- The dedup-append fold only ever appends elements of its input, in
input order. -/
theorem foldl_dedup_extends (l : List String) :
    ∀ init : List String, ∃ extra,
      l.foldl (fun acc d => if acc.contains d then acc else acc ++ [d]) init =
        init ++ extra ∧ List.Sublist extra l := by
  induction l with
  | nil =>
    intro init
    exact ⟨[], by simp, List.nil_sublist []⟩
  | cons x xs ih =>
    intro init
    by_cases hc : init.contains x = true
    · rcases ih init with ⟨e, he, hs⟩
      refine ⟨e, ?_, hs.cons x⟩
      simp only [List.foldl_cons]
      rw [if_pos hc]
      exact he
    · rcases ih (init ++ [x]) with ⟨e, he, hs⟩
      refine ⟨x :: e, ?_, hs.cons₂ x⟩
      have : ¬init.contains x = true := hc
      simp only [List.foldl_cons, if_neg this]
      rw [he, List.append_assoc]
      rfl

/-- An array surviving the non-empty filter is non-empty. -/
theorem nonEmptyItems_isEmpty_false :
    ∀ (o : Option (List EpicItem)) (its : List EpicItem),
      nonEmptyItems o = some its → its.isEmpty = false := by
  intro o its h
  cases o with
  | none => simp [nonEmptyItems] at h
  | some l =>
    simp only [nonEmptyItems] at h
    by_cases hl : l.isEmpty = true
    · simp [hl] at h
    · simp only [hl, if_neg] at h
      cases h
      simpa using hl

/-- A successful date loop returns a non-empty array. -/
theorem tryDates_nonempty (fetch : String → Option String → Option (List EpicItem))
    (c : String) :
    ∀ (cands : List String) (its : List EpicItem),
      (tryDates fetch c cands).1 = some its → its.isEmpty = false := by
  intro cands
  induction cands with
  | nil => intro its h; simp [tryDates] at h
  | cons d ds ih =>
    intro its h
    cases hne : nonEmptyItems (fetch c (some d)) with
    | some its2 =>
      simp [tryDates, hne] at h
      exact h ▸ nonEmptyItems_isEmpty_false (fetch c (some d)) its2 hne
    | none =>
      simp only [tryDates, hne] at h
      exact ih its h

/-- The date loop tries exactly a prefix of the candidate dates, in order,
and tries all of them when it fails. -/
theorem tryDates_trace (fetch : String → Option String → Option (List EpicItem))
    (c : String) :
    ∀ cands : List String, ∃ k, k ≤ cands.length ∧
      (tryDates fetch c cands).2 = (cands.take k).map (fun d => (c, some d)) ∧
      ((tryDates fetch c cands).1 = none → k = cands.length) := by
  intro cands
  induction cands with
  | nil => exact ⟨0, by simp, by simp [tryDates], fun _ => rfl⟩
  | cons d ds ih =>
    cases hne : nonEmptyItems (fetch c (some d)) with
    | some its =>
      refine ⟨1, by simp, ?_, ?_⟩
      · simp [tryDates, hne]
      · intro h
        simp [tryDates, hne] at h
    | none =>
      rcases ih with ⟨k, hk, htr, himp⟩
      refine ⟨k + 1, by simpa using hk, ?_, ?_⟩
      · simp [tryDates, hne, htr]
      · intro h
        simp only [tryDates, hne] at h
        rw [himp h]
        rfl

/-- Every fetch call made by the date loop is for its own collection. -/
theorem tryDates_fst (fetch : String → Option String → Option (List EpicItem))
    (c : String) :
    ∀ (cands : List String) (p : String × Option String),
      p ∈ (tryDates fetch c cands).2 → p.1 = c := by
  intro cands
  induction cands with
  | nil => intro p h; simp [tryDates] at h
  | cons d ds ih =>
    intro p h
    cases hne : nonEmptyItems (fetch c (some d)) with
    | some its =>
      simp [tryDates, hne] at h
      rw [h]
    | none =>
      simp only [tryDates, hne, List.mem_cons] at h
      rcases h with h | h
      · rw [h]
      · exact ih p h

/-- Every fetch call made by a collection iteration is for its own
collection. -/
theorem runOneCollection_fst (fetch : String → Option String → Option (List EpicItem))
    (c : String) (cands : List String) (items0 : Option (List EpicItem))
    (p : String × Option String) :
    p ∈ (runOneCollection fetch c cands items0).2 → p.1 = c := by
  unfold runOneCollection
  dsimp only
  cases hres : (tryDates fetch c cands).1 with
  | some its =>
    by_cases hie : its.isEmpty = true
    · simp only [hie, if_pos]
      intro h
      simp only [List.mem_append, List.mem_singleton] at h
      rcases h with h | h
      · exact tryDates_fst fetch c cands p h
      · rw [h]
    · simp only [hie, if_neg]
      intro h
      exact tryDates_fst fetch c cands p (by simpa using h)
  | none =>
    cases items0 with
    | none =>
      intro h
      simp only [List.mem_append, List.mem_singleton] at h
      rcases h with h | h
      · exact tryDates_fst fetch c cands p h
      · rw [h]
    | some l =>
      by_cases hle : l.isEmpty = true
      · simp only [hle, if_pos]
        intro h
        simp only [List.mem_append, List.mem_singleton] at h
        rcases h with h | h
        · exact tryDates_fst fetch c cands p h
        · rw [h]
      · simp only [hle, if_neg]
        intro h
        exact tryDates_fst fetch c cands p (by simpa using h)

/-- A collection iteration calls the upstream for a prefix of the
candidate dates in order, followed at most by the date-less "today"
endpoint. -/
theorem runOneCollection_dates (fetch : String → Option String → Option (List EpicItem))
    (c : String) (cands : List String) (items0 : Option (List EpicItem)) :
    ∃ k, (runOneCollection fetch c cands items0).2.map Prod.snd =
      ((cands.map some) ++ [none]).take k := by
  rcases tryDates_trace fetch c cands with ⟨k, hk, htr, himp⟩
  unfold runOneCollection
  dsimp only
  cases hres : (tryDates fetch c cands).1 with
  | some its =>
    have hie : its.isEmpty = false := tryDates_nonempty fetch c cands its hres
    refine ⟨k, ?_⟩
    simp only [hie, Bool.false_eq_true, if_neg, if_false]
    rw [htr, List.take_append_of_le_length (by simpa using hk), List.map_map,
      ← List.map_take]
    rfl
  | none =>
    have hkl := himp hres
    have htoday : (tryDates fetch c cands).2 ++ [(c, none)] =
        ((tryDates fetch c cands).2 ++ [(c, none)]) := rfl
    have hfull : ((tryDates fetch c cands).2 ++ [(c, none)]).map Prod.snd =
        ((cands.map some) ++ [none]).take (cands.length + 1) := by
      rw [List.take_of_length_le (by simp)]
      rw [htr, hkl, List.take_length, List.map_append, List.map_map]
      rfl
    cases items0 with
    | none => exact ⟨cands.length + 1, hfull⟩
    | some l =>
      by_cases hle : l.isEmpty = true
      · refine ⟨cands.length + 1, ?_⟩
        simpa [hle] using hfull
      · refine ⟨cands.length, ?_⟩
        simp only [hle, Bool.false_eq_true, if_neg, if_false]
        rw [htr, hkl, List.take_length, List.map_map,
          List.take_append_of_le_length (by simp), List.take_of_length_le (by simp)]
        rfl

/-- All fetch calls of a one-collection strategy run are for that
collection. -/
theorem runStrategy_single_fst (fetch : String → Option String → Option (List EpicItem))
    (avail : String → List String) (dp : Option String) (y c : String)
    (items0 : Option (List EpicItem)) (u : String) (p : String × Option String) :
    p ∈ (runStrategy fetch avail dp y [c] items0 u).2.2 → p.1 = c := by
  unfold runStrategy
  dsimp only
  cases h : nonEmptyItems
      (runOneCollection fetch c (candidateDates dp (avail c) y) items0).1 with
  | some its =>
    intro hp
    exact runOneCollection_fst fetch c _ _ p hp
  | none =>
    intro hp
    simp only [runStrategy, List.append_nil] at hp
    exact runOneCollection_fst fetch c _ _ p hp

/-- C5: collections are tried natural-then-enhanced, reversed exactly when
the caller requested enhanced; within a collection the explicit requested
date (if any) is first, followed by at most the 3 most recent available
dates in listing order; the hard-coded yesterday is used only when there
are no preceding candidates at all; the per-collection fetch calls follow
the candidate list in order (with at most a final date-less call), and all
calls for the first collection precede all calls for the second. -/
theorem C5_epic_strategy_order :
    (∀ rc : String, (rc = "enhanced" → collectionsToTry rc = ["enhanced", "natural"]) ∧
      (rc ≠ "enhanced" → collectionsToTry rc = ["natural", "enhanced"])) ∧
    (∀ (dp : Option String) (avail : List String) (y : String),
      (baseCandidates dp avail = [] → candidateDates dp avail y = [y]) ∧
      (baseCandidates dp avail ≠ [] → candidateDates dp avail y = baseCandidates dp avail)) ∧
    (∀ (d : String) (avail : List String) (y : String), ∃ tl,
      candidateDates (some d) avail y = d :: tl ∧
      List.Sublist tl ((sortDesc avail).take 3)) ∧
    (∀ (avail : List String) (y : String),
      candidateDates none avail y = [y] ∨
      List.Sublist (candidateDates none avail y) ((sortDesc avail).take 3)) ∧
    (∀ (fetch : String → Option String → Option (List EpicItem)) (c : String)
      (cands : List String) (items0 : Option (List EpicItem)), ∃ k,
      (runOneCollection fetch c cands items0).2.map Prod.snd =
        ((cands.map some) ++ [none]).take k) ∧
    (∀ (fetch : String → Option String → Option (List EpicItem))
      (avail : String → List String) (dp : Option String) (y c1 c2 u : String)
      (items0 : Option (List EpicItem)), ∃ t1 t2,
      (runStrategy fetch avail dp y [c1, c2] items0 u).2.2 = t1 ++ t2 ∧
      (∀ p ∈ t1, p.1 = c1) ∧ (∀ p ∈ t2, p.1 = c2)) := by
  refine ⟨?_, ?_, ?_, ?_, ?_, ?_⟩
  · intro rc
    constructor
    · intro h
      subst h
      simp [collectionsToTry]
    · intro h
      simp [collectionsToTry, h]
  · intro dp avail y
    constructor
    · intro h
      simp [candidateDates, h]
    · intro h
      simp [candidateDates, List.isEmpty_iff, h]
  · intro d avail y
    rcases foldl_dedup_extends ((sortDesc avail).take 3) [d] with ⟨e, he, hs⟩
    have hbase : baseCandidates (some d) avail = d :: e := by
      unfold baseCandidates
      dsimp only
      rw [he]
      rfl
    exact ⟨e, by simp [candidateDates, hbase], hs⟩
  · intro avail y
    rcases foldl_dedup_extends ((sortDesc avail).take 3) [] with ⟨e, he, hs⟩
    have hbase : baseCandidates none avail = e := by
      unfold baseCandidates
      dsimp only
      rw [he]
      rfl
    by_cases hne : e = []
    · left
      simp [candidateDates, hbase, hne]
    · right
      have hcd : candidateDates none avail y = e := by
        simp [candidateDates, List.isEmpty_iff, hbase, hne]
      rw [hcd]
      exact hs
  · intro fetch c cands items0
    exact runOneCollection_dates fetch c cands items0
  · intro fetch avail dp y c1 c2 u items0
    unfold runStrategy
    dsimp only
    cases h1 : nonEmptyItems
        (runOneCollection fetch c1 (candidateDates dp (avail c1) y) items0).1 with
    | some its =>
      refine ⟨(runOneCollection fetch c1 (candidateDates dp (avail c1) y) items0).2, [],
        by simp, ?_, by simp⟩
      intro p hp
      exact runOneCollection_fst fetch c1 _ _ p hp
    | none =>
      refine ⟨(runOneCollection fetch c1 (candidateDates dp (avail c1) y) items0).2,
        (runStrategy fetch avail dp y [c2]
          (runOneCollection fetch c1 (candidateDates dp (avail c1) y) items0).1 c1).2.2,
        rfl, ?_, ?_⟩
      · intro p hp
        exact runOneCollection_fst fetch c1 _ _ p hp
      · intro p hp
        exact runStrategy_single_fst fetch avail dp y c2 _ c1 p hp

/-- C5 witness: the explicitly requested enhanced collection reverses the
collection order. -/
theorem C5_epic_strategy_order_witness :
    collectionsToTry "enhanced" = ["enhanced", "natural"] :=
  (C5_epic_strategy_order.1 "enhanced").1 rfl
